import Mathlib

/-!
# Verification of the agent/tool orchestration framework

A shallow embedding, in Lean 4, of the control-flow core of the repository:

* the chunked summarization pipeline
  (`src/agents/summarize/summarize_agent.py`: `SummarizeAgent.__init__`,
  `run`, `_needs_chunking`, `_chunk_text`, `_summarize_direct`,
  `_summarize_chunked`),
* the tool dispatcher and conversational tool-calling loop
  (`src/agents/gym_trainer/gym_trainer_agent.py`: `_execute_tool`,
  `_run_agentic_loop`),
* the per-call system-prompt swap in the tools
  (`src/tools/summarize_tool.py`, `src/tools/progress_tracker_tool.py`).

Modelling conventions:

* Python `str` payloads that are sliced become `List Char`; strings that are
  only carried around stay `String`.
* Python `int` is `Int`; slice indices follow Python's clamping semantics
  (`pyBound`, `pySlice`).
* The `while` loop of `_chunk_text` is embedded with explicit fuel; `none`
  means the loop was still running when the fuel ran out, so divergence of
  the Python loop is `∀ fuel, … = none`.
* Code that can raise is embedded with `Except`; external collaborators (the
  LLM completion gateway, file persistence, the wall clock) are oracle
  parameters.
-/

namespace AgenticSeries

/-! ## Python slicing

`text[a:b]` for step 1: each bound is shifted by `len` when negative and
clamped into `[0, len]`; the result is the elements with indices in
`[lo, hi)`. -/

/-- Clamp one Python slice bound into `[0, len]` (negative bounds count from
the end, exactly as in CPython). -/
def pyBound (len : Nat) (i : Int) : Nat :=
  if i < 0 then (i + len).toNat else min i.toNat len

/-- Python's `s[a:b]` (step 1) on a list of characters. -/
def pySlice (s : List Char) (a b : Int) : List Char :=
  (s.take (pyBound s.length b)).drop (pyBound s.length a)

/-- Slicing with already-clamped natural bounds; `pySlice` reduces to this on
nonnegative bounds. -/
def sliceNat (s : List Char) (a b : Nat) : List Char :=
  (s.take b).drop a

/-! ## `SummarizeAgent._chunk_text`

```python
chunks: List[str] = []
start = 0
while start < len(text):
    end = start + self.chunk_size
    chunks.append(text[start:end])
    start = end - self.chunk_overlap  # slide back by overlap
    if start >= len(text):
        break
return chunks
```

The loop body is `chunkGo`; the `while` condition is the outer `if`, the
`break` the inner one. Fuel counts loop iterations still allowed. -/

/-- One-to-one embedding of the `while` loop of `_chunk_text`. -/
def chunkGo (text : List Char) (size ov : Int) :
    Nat → Int → List (List Char) → Option (List (List Char))
  | 0, _, _ => none
  | fuel + 1, start, acc =>
    if start < (text.length : Int) then
      let e := start + size
      let acc2 := acc ++ [pySlice text start e]
      let start2 := e - ov
      if (text.length : Int) ≤ start2 then some acc2
      else chunkGo text size ov fuel start2 acc2
    else some acc

/-- `SummarizeAgent._chunk_text(text)` with `chunk_size = size` and
`chunk_overlap = ov`; `none` means the loop had not finished after `fuel`
iterations. -/
def chunk_text (text : List Char) (size ov : Int) (fuel : Nat) :
    Option (List (List Char)) :=
  chunkGo text size ov fuel 0 []

/-- The stride of the chunking loop, as a natural number
(`chunk_size - chunk_overlap`, the distance between consecutive starts). -/
def sNat (size ov : Int) : Nat := (size - ov).toNat

/-- Number of chunks the code's loop emits: one start offset at every
multiple of the stride below the text length. -/
def numChunksCode (L : Nat) (size ov : Int) : Nat :=
  if L = 0 then 0 else (L - 1) / sNat size ov + 1

/-- The chunk the loop emits at iteration `k` (`k = 0, 1, …`). -/
def chunkAt (text : List Char) (size ov : Int) (k : Nat) : List Char :=
  pySlice text ((k * sNat size ov : Nat) : Int)
    (((k * sNat size ov : Nat) : Int) + size)

/-- Start offset of the chunk emitted at iteration `k`. -/
def chunkStart (size ov : Int) (k : Nat) : Nat := k * sNat size ov

/-- End offset (exclusive, clipped to the text length) of the chunk emitted
at iteration `k`. -/
def chunkEnd (L : Nat) (size ov : Int) (k : Nat) : Nat :=
  min (chunkStart size ov k + size.toNat) L

/-- The character spans of the chunks `_chunk_text` emits, in order. -/
def codeSpans (L : Nat) (size ov : Int) : List (Nat × Nat) :=
  (List.range (numChunksCode L size ov)).map
    (fun k => (chunkStart size ov k, chunkEnd L size ov k))

/-- The chunk-count formula asserted by the spec,
`ceil((length(t) - chunk_overlap) / (chunk_size - chunk_overlap))`, written
for comparison with what the code computes. -/
def specNumChunks (L : Nat) (size ov : Int) : Nat :=
  (L - ov.toNat + sNat size ov - 1) / sNat size ov

/-! ## The summarization pipeline

`SummarizeAgent.__init__`, `run`, `_needs_chunking`, `_summarize_direct` and
`_summarize_chunked`. The two tools (`SummarizeTool`, `MergeSummariesTool`)
are LLM calls, so they enter the model as oracle functions
`SummarizeToolInput → Except String SummarizeToolOutput`; `.error` is a
raised exception. `_summarize_chunked` additionally records the tool calls
it makes, so that fan-out/fan-in structure (how many summarize calls, how
many merge calls, what the merge consumed) is visible to theorems. -/

/-- `SummarizeToolInput` (`src/tools/summarize_tool.py`). -/
structure SummarizeToolInput where
  text : String
  is_chunk : Bool
deriving DecidableEq

/-- `SummarizeToolOutput` (`src/tools/summarize_tool.py`). -/
structure SummarizeToolOutput where
  summary : String
  key_takeaways : List String
deriving DecidableEq

/-- `SummarizeStatus` (`src/agents/summarize/summarize_agent.py`). -/
inductive SummarizeStatus where
  | success
  | failed
deriving DecidableEq

/-- `SummarizeOutput` (`src/agents/summarize/summarize_agent.py`). -/
structure SummarizeOutput where
  summary : String
  key_takeaways : List String
  status : SummarizeStatus
  original_content_size : Nat
deriving DecidableEq

/-- The configuration `SummarizeAgent.__init__` stores. -/
structure SummarizeAgentState where
  chunk_size : Int
  chunk_overlap : Int
deriving DecidableEq

/-- `SummarizeAgent.__init__`: stores the chunking configuration. The
`Except` result type makes visible that the constructor performs no
validation whatsoever — it succeeds for every `chunk_size`/`chunk_overlap`
pair, including `chunk_overlap ≥ chunk_size`. -/
def summarizeAgent_init (chunk_size chunk_overlap : Int) :
    Except String SummarizeAgentState :=
  .ok ⟨chunk_size, chunk_overlap⟩

/-- One recorded tool invocation of the pipeline. -/
inductive SummCall where
  | summarizeCall (inp : SummarizeToolInput)
  | mergeCall (inp : SummarizeToolInput)
deriving DecidableEq

/-- Is this call an invocation of `MergeSummariesTool`? -/
def SummCall.isMerge : SummCall → Bool
  | .mergeCall _ => true
  | .summarizeCall _ => false

/-- Is this call an invocation of `SummarizeTool`? -/
def SummCall.isSummarize : SummCall → Bool
  | .mergeCall _ => false
  | .summarizeCall _ => true

/-- The label `_summarize_chunked` puts in front of chunk `i` of `n`:
`f"--- Chunk {i} of {n} ---\n"`. -/
def chunkHeader (i n : Nat) : String :=
  "--- Chunk " ++ toString i ++ " of " ++ toString n ++ " ---\n"

/-- The `for i, chunk in enumerate(chunks, start=1)` loop of
`_summarize_chunked`: one `SummarizeTool.run(…, is_chunk=True)` call per
chunk, each summary labeled with its index and the total count. -/
def summarizeChunksGo
    (summ : SummarizeToolInput → Except String SummarizeToolOutput)
    (n : Nat) : Nat → List (List Char) → Except String (List String × List SummCall)
  | _, [] => .ok ([], [])
  | i, c :: rest =>
    let inp : SummarizeToolInput := ⟨String.mk c, true⟩
    match summ inp with
    | .error e => .error e
    | .ok r =>
      match summarizeChunksGo summ n (i + 1) rest with
      | .error e => .error e
      | .ok (ss, log) =>
        .ok ((chunkHeader i n ++ r.summary) :: ss, .summarizeCall inp :: log)

/-- `SummarizeAgent._summarize_chunked`: chunk, summarize every chunk, join
the labeled summaries with blank lines, merge once. `none` means
`_chunk_text` had not finished within `fuel` loop iterations. -/
def summarize_chunked
    (summ merge : SummarizeToolInput → Except String SummarizeToolOutput)
    (st : SummarizeAgentState) (fuel : Nat) (text : List Char) :
    Option (Except String (SummarizeToolOutput × List SummCall)) :=
  match chunk_text text st.chunk_size st.chunk_overlap fuel with
  | none => none
  | some chunks =>
    some (match summarizeChunksGo summ chunks.length 1 chunks with
      | .error e => .error e
      | .ok (ss, log) =>
        let minp : SummarizeToolInput := ⟨String.intercalate "\n\n" ss, false⟩
        match merge minp with
        | .error e => .error e
        | .ok m => .ok (m, log ++ [SummCall.mergeCall minp]))

/-- `SummarizeAgent.run`: route through `_needs_chunking`, catch every
exception and fold it into a `status="failed"` output. `none` means the
call never returned (the chunking loop diverged). -/
def summarizeAgent_run
    (summ merge : SummarizeToolInput → Except String SummarizeToolOutput)
    (st : SummarizeAgentState) (fuel : Nat) (text : List Char) :
    Option SummarizeOutput :=
  let original_size := text.length
  if (text.length : Int) > st.chunk_size then
    match summarize_chunked summ merge st fuel text with
    | none => none
    | some (.error e) =>
      some ⟨"Summarization failed: " ++ e, [], .failed, original_size⟩
    | some (.ok (r, _)) =>
      some ⟨r.summary, r.key_takeaways, .success, original_size⟩
  else
    match summ ⟨String.mk text, false⟩ with
    | .error e =>
      some ⟨"Summarization failed: " ++ e, [], .failed, original_size⟩
    | .ok r =>
      some ⟨r.summary, r.key_takeaways, .success, original_size⟩

/-- A summarizer oracle that always succeeds with summary "s". -/
def sampleSummOracle : SummarizeToolInput → Except String SummarizeToolOutput :=
  fun _ => .ok ⟨"s", []⟩

/-- A merge oracle that always succeeds with summary "m". -/
def sampleMergeOracle : SummarizeToolInput → Except String SummarizeToolOutput :=
  fun _ => .ok ⟨"m", []⟩

/-- The `SummarizeTool` input for the chunk at span `[a, b)` of the
10,000-character sample text. -/
def sampleChunkInput (a b : Nat) : SummarizeToolInput :=
  ⟨String.mk (sliceNat (List.replicate 10000 'a') a b), true⟩

/-- The labeled chunk summaries the sample run produces. -/
def sampleSummaries : List String :=
  [chunkHeader 1 4 ++ "s", chunkHeader 2 4 ++ "s",
   chunkHeader 3 4 ++ "s", chunkHeader 4 4 ++ "s"]

/-- The merge input of the sample run. -/
def sampleMergeInput : SummarizeToolInput :=
  ⟨String.intercalate "\n\n" sampleSummaries, false⟩

/-- The full call log of the sample run. -/
def sampleLog : List SummCall :=
  [.summarizeCall (sampleChunkInput 0 3000),
   .summarizeCall (sampleChunkInput 2800 5800),
   .summarizeCall (sampleChunkInput 5600 8600),
   .summarizeCall (sampleChunkInput 8400 10000),
   .mergeCall sampleMergeInput]

/-! ## The gym trainer agent

`GymTrainerAgent._execute_tool` (the tool dispatcher) and
`_run_agentic_loop` (the conversational tool-calling loop), from
`src/agents/gym_trainer/gym_trainer_agent.py`, together with the response
assembly of `AnthropicClient.complete_with_tools`
(`src/llm_clients/anthropic_client.py`).

Dict-valued tool inputs are carried as string-keyed association lists with
opaque string values; the provider (the Anthropic API) is an oracle from the
call number and the conversation history to a raw response. Pydantic
validation (`tool.input_type(**tool_call.tool_input)`) and tool execution
(`tool.run`) can both raise, so each is an `Except`-valued function. -/

/-- `ToolCall` (`src/llm_clients/base_client.py`). -/
structure ToolCall where
  tool_use_id : String
  tool_name : String
  tool_input : List (String × String)
deriving DecidableEq

/-- One content block of a provider response (`response.content`). -/
inductive ContentBlock where
  | text (s : String)
  | tool_use (id name : String) (input : List (String × String))
deriving DecidableEq

/-- What the Anthropic API returns: content blocks plus a stop reason. -/
structure ProviderResponse where
  content : List ContentBlock
  stop_reason : String
deriving DecidableEq

/-- The `for block in response.content: if block.type == "text": text =
block.text` loop of `complete_with_tools` (the last text block wins). -/
def extractText (content : List ContentBlock) : String :=
  content.foldl
    (fun acc b => match b with
      | .text s => s
      | _ => acc) ""

/-- The `tool_calls.append(...)` arm of the same loop: every `tool_use`
block becomes a `ToolCall`, in content order. -/
def extractToolCalls (content : List ContentBlock) : List ToolCall :=
  content.filterMap fun b =>
    match b with
    | .tool_use id name input => some ⟨id, name, input⟩
    | _ => none

/-- `LLMResponse` (`src/llm_clients/base_client.py`). -/
structure LLMResponse where
  text : String
  tool_calls : List ToolCall
  stop_reason : String
  raw_content : List ContentBlock
deriving DecidableEq

/-- `AnthropicClient.complete_with_tools`: assemble the structured response
from a provider response. -/
def mkResponse (pr : ProviderResponse) : LLMResponse :=
  ⟨extractText pr.content, extractToolCalls pr.content, pr.stop_reason, pr.content⟩

/-- One registered tool, as the dispatcher sees it: schema
validation/coercion of the raw input, then execution + serialization; each
phase can raise. -/
structure ToolImpl where
  validate : List (String × String) → Except String (List (String × String))
  exec : List (String × String) → Except String String

/-- `self._tool_map.get(tool_call.tool_name)`. -/
def lookupTool (tm : List (String × ToolImpl)) (name : String) : Option ToolImpl :=
  (tm.find? (fun p => p.1 == name)).map Prod.snd

/-- `json.dumps({"error": msg})` (string escaping elided). -/
def dumpErrorJson (msg : String) : String :=
  "\x7b\"error\": \"" ++ msg ++ "\"\x7d"

/-- `GymTrainerAgent._execute_tool`: resolve the tool by name, validate the
input, run it, serialize; every failure becomes an error-descriptor JSON
string and the function is total. -/
def execute_tool (tm : List (String × ToolImpl)) (tc : ToolCall) : String :=
  match lookupTool tm tc.tool_name with
  | none => dumpErrorJson ("Unknown tool: " ++ tc.tool_name)
  | some tool =>
    match tool.validate tc.tool_input with
    | .error e => dumpErrorJson e
    | .ok inp =>
      match tool.exec inp with
      | .error e => dumpErrorJson e
      | .ok res => res

/-- `{"type": "tool_result", "tool_use_id": …, "content": …}`. -/
structure ToolResult where
  tool_use_id : String
  content : String
deriving DecidableEq

/-- Payload of one history entry: a plain user string, the assistant's raw
content blocks, or a list of tool results. -/
inductive MsgContent where
  | text (s : String)
  | blocks (bs : List ContentBlock)
  | results (rs : List ToolResult)
deriving DecidableEq

/-- One entry of `self._history` (Anthropic-format message dict). -/
structure HistMsg where
  role : String
  content : MsgContent
deriving DecidableEq

/-- The `tool_results` list built inside `_run_agentic_loop`: one result per
requested call, in request order, correlated by `tool_use_id`. -/
def toolResults (tm : List (String × ToolImpl)) (tcs : List ToolCall) :
    List ToolResult :=
  tcs.map fun tc => ⟨tc.tool_use_id, execute_tool tm tc⟩

/-- `GymTrainerAgent._run_agentic_loop`. The oracle is the gateway: call
number and current history to provider response. `none` means the `while
True:` loop was still running after `fuel` iterations. -/
def run_agentic_loop (oracle : Nat → List HistMsg → ProviderResponse)
    (tm : List (String × ToolImpl)) :
    Nat → Nat → List HistMsg → Option (List HistMsg)
  | _, 0, _ => none
  | n, fuel + 1, history =>
    let resp := mkResponse (oracle n history)
    if resp.stop_reason == "end_turn" then
      some (history ++ [⟨"assistant", .blocks resp.raw_content⟩])
    else if resp.stop_reason == "tool_use" then
      run_agentic_loop oracle tm (n + 1) fuel
        (history ++ [⟨"assistant", .blocks resp.raw_content⟩,
          ⟨"user", .results (toolResults tm resp.tool_calls)⟩])
    else
      run_agentic_loop oracle tm (n + 1) fuel history

/-- The well-formed conversation steps of the loop: an `end_turn` response
appends the assistant turn and stops; a `tool_use` response atomically
appends the assistant turn together with the driver turn holding one
correlated result per requested call, before the next gateway call; any
other stop reason leaves the history untouched. -/
inductive ConvSteps (oracle : Nat → List HistMsg → ProviderResponse)
    (tm : List (String × ToolImpl)) : Nat → List HistMsg → List HistMsg → Prop where
  | final (n : Nat) (h : List HistMsg) :
      (mkResponse (oracle n h)).stop_reason = "end_turn" →
      ConvSteps oracle tm n h
        (h ++ [⟨"assistant", .blocks (mkResponse (oracle n h)).raw_content⟩])
  | tools (n : Nat) (h h' : List HistMsg) :
      (mkResponse (oracle n h)).stop_reason = "tool_use" →
      ConvSteps oracle tm (n + 1)
        (h ++ [⟨"assistant", .blocks (mkResponse (oracle n h)).raw_content⟩,
          ⟨"user", .results (toolResults tm (mkResponse (oracle n h)).tool_calls)⟩])
        h' →
      ConvSteps oracle tm n h h'
  | skip (n : Nat) (h h' : List HistMsg) :
      (mkResponse (oracle n h)).stop_reason ≠ "end_turn" →
      (mkResponse (oracle n h)).stop_reason ≠ "tool_use" →
      ConvSteps oracle tm (n + 1) h h' →
      ConvSteps oracle tm n h h'

/-- A gateway that immediately ends the turn. -/
def sampleOracleEnd : Nat → List HistMsg → ProviderResponse :=
  fun _ _ => ⟨[ContentBlock.text "bye"], "end_turn"⟩

/-- A gateway that always stops for `"max_tokens"`. -/
def sampleOracleMax : Nat → List HistMsg → ProviderResponse :=
  fun _ _ => ⟨[], "max_tokens"⟩

/-! ## Per-call system-prompt swapping in the tools

`SummarizeTool.run` and `MergeSummariesTool.run`
(`src/tools/summarize_tool.py`) and `ProgressTrackerTool.run`
(`src/tools/progress_tracker_tool.py`) all pass a per-call system prompt by
mutating the shared client configuration and putting the original value
back. The runs are embedded as state-passing functions on `LLMConfig`; an
exception carries the configuration as it stood when the exception left the
function (the two summarize tools restore after the gateway call with no
`finally`, the progress tracker restores in a `finally`). Python floats are
carried opaquely. -/

/-- Opaque carrier for a Python float (no float arithmetic is modeled). -/
structure PyFloat where
  value : String
deriving DecidableEq

/-- `LLMConfig` (`src/llm_clients/base_client.py`). -/
structure LLMConfig where
  model : String
  max_tokens : Int
  temperature : PyFloat
  system_prompt : Option String
deriving DecidableEq

/-- `Message` (`src/llm_clients/base_client.py`). -/
structure Message where
  role : String
  content : String
deriving DecidableEq

/-- The dict `complete_json` returns to the summarize tools; `none` fields
make the `result["…"]` key lookups fallible, as in Python. -/
structure SummJson where
  summary : Option String
  key_takeaways : Option (List String)
deriving DecidableEq

/-- `_CHUNK_PROMPT` of `src/tools/summarize_tool.py`. -/
def CHUNK_PROMPT : String :=
  "You are a precise summarization assistant.\n" ++
  "You will receive ONE CHUNK from a larger document.\n" ++
  "Your job is to:\n" ++
  "1. Write a concise summary of this chunk only.\n" ++
  "2. Extract up to 5 key takeaways from this chunk.\n" ++
  "Keep your response focused on what is in this chunk alone."

/-- `_FULL_PROMPT` of `src/tools/summarize_tool.py`. -/
def FULL_PROMPT : String :=
  "You are a precise summarization assistant.\n" ++
  "You will receive a complete piece of text.\n" ++
  "Your job is to:\n" ++
  "1. Write a concise, coherent summary.\n" ++
  "2. Extract up to 7 key takeaways — the most important insights a reader should remember.\n" ++
  "Be objective and thorough."

/-- `_MERGE_PROMPT` of `src/tools/summarize_tool.py`. -/
def MERGE_PROMPT : String :=
  "You are a precise summarization assistant.\n" ++
  "You will receive several chunk summaries that together cover a large document.\n" ++
  "Your job is to:\n" ++
  "1. Write a single, unified, coherent summary of the entire document.\n" ++
  "2. Extract up to 7 key takeaways — the most important insights from the whole document.\n" ++
  "Do not mention that the text was split into chunks."

/-- `_SYSTEM_PROMPT` of `src/tools/progress_tracker_tool.py`. -/
def PT_SYSTEM_PROMPT : String :=
  "You are an encouraging personal trainer reviewing a client's workout history.\n" ++
  "Summarise their recent progress in 2-3 motivating sentences and identify any\n" ++
  "noteworthy achievements (e.g. consistency streak, improving difficulty tolerance,\n" ++
  "reaching session milestones). Be specific and positive."

/-- `SummarizeTool.run`: pick the chunk/full prompt, swap it into the shared
config, call `complete_json`, swap the original back, read the two result
keys. A gateway exception leaves the function before the restore. -/
def summarizeTool_run
    (complete_json : LLMConfig → List Message → Except String SummJson)
    (cfg : LLMConfig) (inp : SummarizeToolInput) :
    Except (String × LLMConfig) (LLMConfig × SummarizeToolOutput) :=
  let system := if inp.is_chunk then CHUNK_PROMPT else FULL_PROMPT
  let messages : List Message := [⟨"user", inp.text⟩]
  let original_system := cfg.system_prompt
  let cfg1 := { cfg with system_prompt := some system }
  match complete_json cfg1 messages with
  | .error e => .error (e, cfg1)
  | .ok result =>
    let cfg2 := { cfg1 with system_prompt := original_system }
    match result.summary with
    | none => .error ("KeyError: summary", cfg2)
    | some s =>
      match result.key_takeaways with
      | none => .error ("KeyError: key_takeaways", cfg2)
      | some kt => .ok (cfg2, ⟨s, kt⟩)

/-- `MergeSummariesTool.run`: as `SummarizeTool.run` but always with the
merge prompt. -/
def mergeSummariesTool_run
    (complete_json : LLMConfig → List Message → Except String SummJson)
    (cfg : LLMConfig) (inp : SummarizeToolInput) :
    Except (String × LLMConfig) (LLMConfig × SummarizeToolOutput) :=
  let messages : List Message := [⟨"user", inp.text⟩]
  let original_system := cfg.system_prompt
  let cfg1 := { cfg with system_prompt := some MERGE_PROMPT }
  match complete_json cfg1 messages with
  | .error e => .error (e, cfg1)
  | .ok result =>
    let cfg2 := { cfg1 with system_prompt := original_system }
    match result.summary with
    | none => .error ("KeyError: summary", cfg2)
    | some s =>
      match result.key_takeaways with
      | none => .error ("KeyError: key_takeaways", cfg2)
      | some kt => .ok (cfg2, ⟨s, kt⟩)

/-- `ProgressTrackerInput` (`src/tools/progress_tracker_tool.py`);
per-exercise dicts are string-keyed association lists. -/
structure ProgressTrackerInput where
  user_id : String
  focus_area : String
  duration_minutes : Int
  exercises_completed : List (List (String × String))
  energy_level : Int
  difficulty_rating : Int
  notes : Option String
deriving DecidableEq

/-- `WorkoutSession` (`src/agents/gym_trainer/user_profile.py`), the record
`save_session` appends. -/
structure WorkoutSession where
  focus_area : String
  duration_minutes : Int
  exercises_completed : List (List (String × String))
  energy_level : Int
  difficulty_rating : Int
  notes : Option String
deriving DecidableEq

/-- `ProgressTrackerOutput` (`src/tools/progress_tracker_tool.py`). -/
structure ProgressTrackerOutput where
  total_sessions : Nat
  streak_days : Nat
  progress_summary : String
  achievements : List String
deriving DecidableEq

/-- The dict `complete_json` returns to the progress tracker. -/
structure ProgJson where
  progress_summary : Option String
  achievements : Option (List String)
deriving DecidableEq

/-- `ProgressTrackerTool.run`: persist the session (append), reload, compute
the streak, swap in the trainer prompt, call `complete_json` inside
`try/finally` (the original prompt is restored on both paths), then read
the result keys. File persistence, the wall clock behind `_compute_streak`
and `json.dumps` are external collaborators, passed as oracles. -/
def progressTracker_run
    (complete_json : LLMConfig → List Message → Except String ProgJson)
    (streakOf : List WorkoutSession → Nat)
    (dumps : List WorkoutSession → String)
    (store : List WorkoutSession) (cfg : LLMConfig)
    (inp : ProgressTrackerInput) :
    Except (String × LLMConfig × List WorkoutSession)
      (LLMConfig × List WorkoutSession × ProgressTrackerOutput) :=
  let session : WorkoutSession :=
    ⟨inp.focus_area, inp.duration_minutes, inp.exercises_completed,
      inp.energy_level, inp.difficulty_rating, inp.notes⟩
  let store1 := store ++ [session]
  let all_sessions := store1
  let total := all_sessions.length
  let streak := streakOf all_sessions
  let recent := all_sessions.drop (all_sessions.length - 5)
  let user_message : Message := ⟨"user",
    "The user just completed session #" ++ toString total ++ ".\n"
      ++ "Streak: " ++ toString streak ++ " consecutive day(s).\n\n"
      ++ "Recent sessions (last " ++ toString recent.length ++ "):\n"
      ++ dumps recent ++ "\n\n"
      ++ "Write a short motivating progress summary and list specific achievements."⟩
  let original_system := cfg.system_prompt
  let cfg1 := { cfg with system_prompt := some PT_SYSTEM_PROMPT }
  match complete_json cfg1 [user_message] with
  | .error e => .error (e, { cfg1 with system_prompt := original_system }, store1)
  | .ok raw =>
    let cfg2 := { cfg1 with system_prompt := original_system }
    match raw.progress_summary with
    | none => .error ("KeyError: progress_summary", cfg2, store1)
    | some ps =>
      match raw.achievements with
      | none => .error ("KeyError: achievements", cfg2, store1)
      | some ach => .ok (cfg2, store1, ⟨total, streak, ps, ach⟩)

/-- A sample shared client configuration. -/
def sampleCfg : LLMConfig := ⟨"claude-sonnet", 4096, ⟨"0.3"⟩, none⟩

/-- A `complete_json` oracle for the summarize tools that always succeeds. -/
def sampleSummJsonOracle : LLMConfig → List Message → Except String SummJson :=
  fun _ _ => .ok ⟨some "x", some []⟩

/-- A `complete_json` oracle for the progress tracker that always
succeeds. -/
def sampleProgJsonOracle : LLMConfig → List Message → Except String ProgJson :=
  fun _ _ => .ok ⟨some "p", some []⟩

theorem take_min_length (s : List Char) (b : Nat) :
    s.take (min b s.length) = s.take b := by
  have h := List.take_take b s.length s
  rw [List.take_length] at h
  exact h.symm

theorem drop_min_of_le (s t : List Char) (a : Nat) (h : t.length ≤ s.length) :
    t.drop (min a s.length) = t.drop a := by
  rcases le_total a s.length with h' | h'
  · rw [min_eq_left h']
  · rw [min_eq_right h', List.drop_eq_nil_of_le h,
      List.drop_eq_nil_of_le (le_trans h h')]

/-- On nonnegative bounds Python slicing is plain take/drop. -/
theorem pySlice_eq_sliceNat (s : List Char) (a b : Nat) :
    pySlice s (a : Int) (b : Int) = sliceNat s a b := by
  unfold pySlice sliceNat pyBound
  have ha : ¬ ((a : Int) < 0) := by omega
  have hb : ¬ ((b : Int) < 0) := by omega
  rw [if_neg ha, if_neg hb, Int.toNat_ofNat, Int.toNat_ofNat, take_min_length]
  have ht : (s.take b).length ≤ s.length := by
    rw [List.length_take]
    omega
  exact drop_min_of_le s (s.take b) a ht

/-- Clamping the upper bound at the length does not change a slice. -/
theorem sliceNat_min_right (s : List Char) (a b : Nat) :
    sliceNat s a (min b s.length) = sliceNat s a b := by
  unfold sliceNat
  rw [take_min_length]

theorem sliceNat_length (s : List Char) (a b : Nat) :
    (sliceNat s a b).length = min b s.length - a := by
  unfold sliceNat
  rw [List.length_drop, List.length_take]

theorem sNat_cast (size ov : Int) (hlt : ov < size) :
    ((sNat size ov : Nat) : Int) = size - ov := by
  unfold sNat
  omega

/-- Closed form of the chunking loop: starting at offset `k·stride` with `m+1`
chunk starts still below the text length, the loop returns the chunks at
iterations `k, k+1, …, k+m`. -/
theorem chunkGo_closed (text : List Char) (size ov : Int)
    (hov : 0 ≤ ov) (hlt : ov < size) :
    ∀ (m k : Nat) (acc : List (List Char)) (fuel : Nat),
      m + 1 ≤ fuel →
      (k + m) * sNat size ov < text.length →
      text.length ≤ (k + m + 1) * sNat size ov →
      chunkGo text size ov fuel ((k * sNat size ov : Nat) : Int) acc
        = some (acc ++ (List.range' k (m + 1)).map (chunkAt text size ov)) := by
  have hcast := sNat_cast size ov hlt
  have hs : 1 ≤ sNat size ov := by unfold sNat; omega
  have hsucc : ∀ k : Nat, (k + 1) * sNat size ov = k * sNat size ov + sNat size ov := by
    intro k
    ring
  have hcastmul : ∀ k : Nat, (((k + 1) * sNat size ov : Nat) : Int)
      = ((k * sNat size ov : Nat) : Int) + ((sNat size ov : Nat) : Int) := by
    intro k
    rw [hsucc k, Nat.cast_add]
  intro m
  induction m with
  | zero =>
    intro k acc fuel hfuel hlo hhi
    match fuel, hfuel with
    | fuel + 1, _ =>
      rw [chunkGo]
      rw [Nat.add_zero] at hlo
      rw [Nat.add_zero] at hhi
      have hstart : ((k * sNat size ov : Nat) : Int) < (text.length : Int) := by
        exact_mod_cast hlo
      rw [if_pos hstart]
      have hstop : (text.length : Int) ≤ ((k * sNat size ov : Nat) : Int) + size - ov := by
        have h2 : ((text.length : Nat) : Int) ≤ (((k + 1) * sNat size ov : Nat) : Int) := by
          exact_mod_cast hhi
        rw [hcastmul k] at h2
        omega
      rw [if_pos hstop]
      simp [chunkAt, List.range']
  | succ m ih =>
    intro k acc fuel hfuel hlo hhi
    match fuel, hfuel with
    | fuel + 1, hfuel =>
      rw [chunkGo]
      have hmono : (k + 1) * sNat size ov ≤ (k + m + 1) * sNat size ov :=
        Nat.mul_le_mul_right _ (by omega)
      have hk1 : (k + 1) * sNat size ov < text.length := by
        have hlo' : (k + m + 1) * sNat size ov < text.length := by
          have : k + (m + 1) = k + m + 1 := by omega
          rwa [this] at hlo
        omega
      have hstart : ((k * sNat size ov : Nat) : Int) < (text.length : Int) := by
        have : k * sNat size ov < text.length := by
          have := hsucc k
          omega
        exact_mod_cast this
      rw [if_pos hstart]
      have hnostop : ¬ ((text.length : Int) ≤ ((k * sNat size ov : Nat) : Int) + size - ov) := by
        have h2 : (((k + 1) * sNat size ov : Nat) : Int) < (text.length : Int) := by
          exact_mod_cast hk1
        rw [hcastmul k] at h2
        omega
      rw [if_neg hnostop]
      have hrw : ((k * sNat size ov : Nat) : Int) + size - ov
          = (((k + 1) * sNat size ov : Nat) : Int) := by
        rw [hcastmul k]
        omega
      rw [hrw]
      rw [ih (k + 1) (acc ++ [pySlice text ((k * sNat size ov : Nat) : Int)
            (((k * sNat size ov : Nat) : Int) + size)])
          fuel (by omega)
          (by
            have : k + 1 + m = k + m + 1 := by omega
            rw [this]
            have h3 : k + (m + 1) = k + m + 1 := by omega
            rwa [h3] at hlo)
          (by
            have : k + 1 + m + 1 = k + (m + 1) + 1 := by omega
            rw [this]
            exact hhi)]
      have hrange : List.range' k (m + 2) = k :: List.range' (k + 1) (m + 1) := by
        rfl
      rw [hrange]
      simp [chunkAt]

/-- Closed form of `_chunk_text`: with enough fuel the loop returns exactly
the chunks at iterations `0, …, N-1`, `N = numChunksCode`. -/
theorem chunk_text_closed (text : List Char) (size ov : Int)
    (hov : 0 ≤ ov) (hlt : ov < size) (hL : 0 < text.length) (fuel : Nat)
    (hfuel : numChunksCode text.length size ov ≤ fuel) :
    chunk_text text size ov fuel
      = some ((List.range (numChunksCode text.length size ov)).map
          (chunkAt text size ov)) := by
  have hs : 1 ≤ sNat size ov := by unfold sNat; omega
  set s := sNat size ov with hsdef
  set q := (text.length - 1) / s with hqdef
  have hN : numChunksCode text.length size ov = q + 1 := by
    unfold numChunksCode
    rw [if_neg (by omega)]
  have hdm : q * s + (text.length - 1) % s = text.length - 1 := by
    rw [hqdef, Nat.mul_comm]
    exact Nat.div_add_mod _ _
  have hmod : (text.length - 1) % s < s := Nat.mod_lt _ (by omega)
  have hexp : (q + 1) * s = q * s + s := by ring
  have hlo : (0 + q) * s < text.length := by
    rw [Nat.zero_add]
    omega
  have hhi : text.length ≤ (0 + q + 1) * s := by
    rw [Nat.zero_add]
    omega
  have h := chunkGo_closed text size ov hov hlt q 0 [] fuel (by omega) hlo hhi
  have h0 : ((0 * s : Nat) : Int) = 0 := by simp
  rw [h0] at h
  unfold chunk_text
  rw [h, hN, List.range_eq_range']
  simp

/-- Each emitted chunk is exactly the slice of the text at its span. -/
theorem chunkAt_eq_slice_span (text : List Char) (size ov : Int)
    (hov : 0 ≤ ov) (hlt : ov < size) (k : Nat) :
    chunkAt text size ov k
      = sliceNat text (chunkStart size ov k) (chunkEnd text.length size ov k) := by
  unfold chunkAt chunkEnd chunkStart
  have hsize : 0 ≤ size := by omega
  have hcast : ((k * sNat size ov : Nat) : Int) + size
      = ((k * sNat size ov + size.toNat : Nat) : Int) := by
    rw [Nat.cast_add, Int.toNat_of_nonneg hsize]
  rw [hcast, pySlice_eq_sliceNat, sliceNat_min_right]

/-- `_chunk_text` realizes exactly the spans of `codeSpans`. -/
theorem chunk_text_eq_spans (text : List Char) (size ov : Int)
    (hov : 0 ≤ ov) (hlt : ov < size) (hL : 0 < text.length) (fuel : Nat)
    (hfuel : numChunksCode text.length size ov ≤ fuel) :
    chunk_text text size ov fuel
      = some ((codeSpans text.length size ov).map
          (fun p => sliceNat text p.1 p.2)) := by
  rw [chunk_text_closed text size ov hov hlt hL fuel hfuel]
  unfold codeSpans
  rw [List.map_map]
  congr 1
  apply List.map_congr_left
  intro k _
  exact chunkAt_eq_slice_span text size ov hov hlt k

/-- Every text position below the length lies in some emitted span. -/
theorem codeSpans_cover (L : Nat) (size ov : Int)
    (hov : 0 ≤ ov) (hlt : ov < size) (hL : 0 < L) :
    ∀ i, i < L → ∃ p ∈ codeSpans L size ov, p.1 ≤ i ∧ i < p.2 := by
  have hs : 1 ≤ sNat size ov := by unfold sNat; omega
  intro i hi
  refine ⟨(chunkStart size ov (i / sNat size ov), chunkEnd L size ov (i / sNat size ov)),
    ?_, ?_, ?_⟩
  · unfold codeSpans
    apply List.mem_map_of_mem
    apply List.mem_range.mpr
    unfold numChunksCode
    rw [if_neg (by omega)]
    have : i / sNat size ov ≤ (L - 1) / sNat size ov :=
      Nat.div_le_div_right (by omega)
    omega
  · unfold chunkStart
    exact Nat.div_mul_le_self i _
  · unfold chunkEnd chunkStart
    have hdm : (i / sNat size ov) * sNat size ov + i % sNat size ov = i := by
      rw [Nat.mul_comm]
      exact Nat.div_add_mod i _
    have hmod : i % sNat size ov < sNat size ov := Nat.mod_lt _ (by omega)
    have hle : sNat size ov ≤ size.toNat := by unfold sNat; omega
    omega

/-- Overlap between consecutive emitted spans: always
`min ov (L - start of the later span)`, and exactly `ov` whenever the earlier
chunk is not clipped by the end of the text. -/
theorem codeSpans_overlap (L : Nat) (size ov : Int)
    (hov : 0 ≤ ov) (hlt : ov < size) :
    ∀ k, k + 1 < numChunksCode L size ov →
      ((chunkEnd L size ov k : Int) - (chunkStart size ov (k + 1) : Int)
          = min ov ((L : Int) - (chunkStart size ov (k + 1) : Int))
        ∧ (chunkStart size ov k + size.toNat ≤ L →
            (chunkEnd L size ov k : Int) - (chunkStart size ov (k + 1) : Int) = ov)) := by
  have hs : 1 ≤ sNat size ov := by unfold sNat; omega
  intro k hk
  have hN : numChunksCode L size ov ≠ 0 := by omega
  have hL : 0 < L := by
    unfold numChunksCode at hN
    by_contra h
    rw [if_pos (by omega)] at hN
    exact hN rfl
  -- the later span's start is still inside the text
  have hstartlt : chunkStart size ov (k + 1) < L := by
    unfold numChunksCode at hk
    rw [if_neg (by omega)] at hk
    unfold chunkStart
    have hq : k + 1 ≤ (L - 1) / sNat size ov := by omega
    have := Nat.mul_le_mul_right (sNat size ov) hq
    have hqs : (L - 1) / sNat size ov * sNat size ov ≤ L - 1 :=
      Nat.div_mul_le_self _ _
    omega
  have hsucc : chunkStart size ov (k + 1)
      = chunkStart size ov k + sNat size ov := by
    unfold chunkStart
    ring
  have hscast : ((sNat size ov : Nat) : Int) = size - ov := sNat_cast size ov hlt
  have hsize : ((size.toNat : Nat) : Int) = size := by omega
  unfold chunkEnd
  rw [hsucc] at hstartlt ⊢
  push_cast [Nat.cast_min]
  constructor
  · omega
  · intro h
    omega

/-- The loop's chunk count in ceiling form: `⌈L / stride⌉`. -/
theorem numChunksCode_eq_ceil (L : Nat) (size ov : Int)
    (hL : 0 < L) (hs : 1 ≤ sNat size ov) :
    numChunksCode L size ov = (L + sNat size ov - 1) / sNat size ov := by
  unfold numChunksCode
  rw [if_neg (by omega)]
  generalize sNat size ov = s at hs ⊢
  set q := (L - 1) / s with hqdef
  have hdm : q * s + (L - 1) % s = L - 1 := by
    rw [hqdef, Nat.mul_comm]
    exact Nat.div_add_mod _ _
  have hmod : (L - 1) % s < s := Nat.mod_lt _ (by omega)
  have hrw : L + s - 1 = s * (q + 1) + (L - 1) % s := by
    have hexp : s * (q + 1) = q * s + s := by ring
    omega
  rw [hrw, Nat.mul_add_div (by omega), Nat.div_eq_of_lt hmod, Nat.add_zero]

/-- Enough fuel for the whole loop: one unit per text character plus one. -/
theorem numChunksCode_le_fuel (L : Nat) (size ov : Int) (hs : 1 ≤ sNat size ov) :
    numChunksCode L size ov ≤ L + 1 := by
  unfold numChunksCode
  split
  · omega
  · have := Nat.div_le_self (L - 1) (sNat size ov)
    omega

/-- C6: For every text t and every configuration with
0 <= chunk_overlap < chunk_size, the chunking loop of
SummarizeAgent._chunk_text advances its start offset by a strictly positive
stride (chunk_size - chunk_overlap) on each iteration and therefore
terminates (with fuel one larger than the text length the loop has already
returned). -/
theorem chunk_loop_terminates (text : List Char) (size ov : Int)
    (hov : 0 ≤ ov) (hlt : ov < size) :
    0 < size - ov ∧ (chunk_text text size ov (text.length + 1)).isSome := by
  have hs : 1 ≤ sNat size ov := by unfold sNat; omega
  refine ⟨by omega, ?_⟩
  rcases Nat.eq_zero_or_pos text.length with h0 | hpos
  · unfold chunk_text chunkGo
    rw [h0]
    simp
  · rw [chunk_text_closed text size ov hov hlt hpos _
      (numChunksCode_le_fuel _ _ _ hs)]
    simp

/-- Witness for `chunk_loop_terminates` at a concrete input. -/
theorem chunk_loop_terminates_witness :
    0 < (10 : Int) - 3
      ∧ (chunk_text (List.replicate 4 'x') 10 3 ((List.replicate 4 'x').length + 1)).isSome :=
  chunk_loop_terminates (List.replicate 4 'x') 10 3 (by decide) (by decide)

/-- C3 (amended): for texts longer than `chunk_size` and
`0 ≤ chunk_overlap < chunk_size`, the chunks are exactly the slices at
`codeSpans`, those spans cover `[0, length(t))` with no gap, consecutive
spans overlap by `min(chunk_overlap, length(t) - start of the later chunk)`
characters, and the overlap is exactly `chunk_overlap` whenever the earlier
chunk of the pair is not clipped by the end of the text. -/
theorem chunk_spans_cover_overlap (text : List Char) (size ov : Int)
    (hov : 0 ≤ ov) (hlt : ov < size) (hlong : size < (text.length : Int)) :
    chunk_text text size ov (text.length + 1)
        = some ((codeSpans text.length size ov).map (fun p => sliceNat text p.1 p.2))
      ∧ (∀ i, i < text.length →
          ∃ p ∈ codeSpans text.length size ov, p.1 ≤ i ∧ i < p.2)
      ∧ (∀ k, k + 1 < numChunksCode text.length size ov →
          (chunkEnd text.length size ov k : Int) - (chunkStart size ov (k + 1) : Int)
            = min ov ((text.length : Int) - (chunkStart size ov (k + 1) : Int)))
      ∧ (∀ k, k + 1 < numChunksCode text.length size ov →
          chunkStart size ov k + size.toNat ≤ text.length →
          (chunkEnd text.length size ov k : Int) - (chunkStart size ov (k + 1) : Int)
            = ov) := by
  have hs : 1 ≤ sNat size ov := by unfold sNat; omega
  have hL : 0 < text.length := by omega
  refine ⟨chunk_text_eq_spans text size ov hov hlt hL _
      (numChunksCode_le_fuel _ _ _ hs),
    codeSpans_cover text.length size ov hov hlt hL, ?_, ?_⟩
  · intro k hk
    exact (codeSpans_overlap text.length size ov hov hlt k hk).1
  · intro k hk hfull
    exact (codeSpans_overlap text.length size ov hov hlt k hk).2 hfull

/-- Witness for `chunk_spans_cover_overlap` on a 7-character text with
`chunk_size = 3`, `chunk_overlap = 1`. -/
theorem chunk_spans_cover_overlap_witness :
    chunk_text (List.replicate 7 'a') 3 1 ((List.replicate 7 'a').length + 1)
        = some ((codeSpans (List.replicate 7 'a').length 3 1).map
            (fun p => sliceNat (List.replicate 7 'a') p.1 p.2))
      ∧ (∀ i, i < (List.replicate 7 'a').length →
          ∃ p ∈ codeSpans (List.replicate 7 'a').length 3 1, p.1 ≤ i ∧ i < p.2)
      ∧ (∀ k, k + 1 < numChunksCode (List.replicate 7 'a').length 3 1 →
          (chunkEnd (List.replicate 7 'a').length 3 1 k : Int)
              - (chunkStart 3 1 (k + 1) : Int)
            = min 1 (((List.replicate 7 'a').length : Int)
                - (chunkStart 3 1 (k + 1) : Int)))
      ∧ (∀ k, k + 1 < numChunksCode (List.replicate 7 'a').length 3 1 →
          chunkStart 3 1 k + (3 : Int).toNat ≤ (List.replicate 7 'a').length →
          (chunkEnd (List.replicate 7 'a').length 3 1 k : Int)
              - (chunkStart 3 1 (k + 1) : Int) = 1) :=
  chunk_spans_cover_overlap (List.replicate 7 'a') 3 1 (by decide) (by decide)
    (by decide)

/-- C3 (counterexample to the claim as stated): with an 11-character text,
`chunk_size = 10`, `chunk_overlap = 5`, the code emits three chunks with
spans (0,10), (5,11), (10,11); the second and third chunks are consecutive
yet overlap by 1 character, not by `chunk_overlap = 5`, even though the
exception the claim grants is only about the final chunk's length. -/
theorem chunk_overlap_counterexample :
    Option.map (List.map List.length) (chunk_text (List.replicate 11 'a') 10 5 12)
        = some [10, 6, 1]
      ∧ codeSpans 11 10 5 = [(0, 10), (5, 11), (10, 11)]
      ∧ numChunksCode 11 10 5 = 3
      ∧ (chunkEnd 11 10 5 1 : Int) - (chunkStart 10 5 2 : Int) = 1
      ∧ (1 : Int) ≠ 5 := by
  refine ⟨by decide, by decide, by decide, by decide, by decide⟩

/-- C4 (amended): the number of chunks is
`ceil(length(t) / (chunk_size - chunk_overlap))`, bounded below by 1 (the
code emits a chunk at every multiple of the stride below the text length,
so the numerator is the full length, not `length(t) - chunk_overlap`). -/
theorem chunk_count_formula (text : List Char) (size ov : Int)
    (hov : 0 ≤ ov) (hlt : ov < size) (hlong : size < (text.length : Int)) :
    Option.map List.length (chunk_text text size ov (text.length + 1))
        = some ((text.length + sNat size ov - 1) / sNat size ov)
      ∧ 1 ≤ (text.length + sNat size ov - 1) / sNat size ov := by
  have hs : 1 ≤ sNat size ov := by unfold sNat; omega
  have hL : 0 < text.length := by omega
  have hceil := numChunksCode_eq_ceil text.length size ov hL hs
  constructor
  · rw [chunk_text_closed text size ov hov hlt hL _
      (numChunksCode_le_fuel _ _ _ hs)]
    simp [← hceil]
  · rw [← hceil]
    unfold numChunksCode
    rw [if_neg (by omega)]
    exact Nat.le_add_left 1 _

/-- Witness for `chunk_count_formula` on a 7-character text. -/
theorem chunk_count_formula_witness :
    Option.map List.length
        (chunk_text (List.replicate 7 'a') 3 1 ((List.replicate 7 'a').length + 1))
        = some (((List.replicate 7 'a').length + sNat 3 1 - 1) / sNat 3 1)
      ∧ 1 ≤ ((List.replicate 7 'a').length + sNat 3 1 - 1) / sNat 3 1 :=
  chunk_count_formula (List.replicate 7 'a') 3 1 (by decide) (by decide) (by decide)

/-- C4 (counterexample to the claim as stated): for the 11-character text
with `chunk_size = 10`, `chunk_overlap = 5` the code emits 3 chunks, while
the spec's formula `ceil((11 - 5) / (10 - 5))` gives 2. -/
theorem chunk_count_counterexample :
    Option.map List.length (chunk_text (List.replicate 11 'a') 10 5 12) = some 3
      ∧ specNumChunks 11 10 5 = 2
      ∧ (3 : Nat) ≠ 2 := by
  refine ⟨by decide, by decide, by decide⟩

/-- With `chunk_overlap = chunk_size = 10` and an 11-character text, the
chunking loop re-reads the same offset forever: it never returns, whatever
the fuel. -/
theorem chunkGo_stuck :
    ∀ (fuel : Nat) (acc : List (List Char)),
      chunkGo (List.replicate 11 'a') 10 10 fuel 0 acc = none := by
  intro fuel
  induction fuel with
  | zero =>
    intro acc
    rfl
  | succ f ih =>
    intro acc
    rw [chunkGo]
    simp only [List.length_replicate]
    norm_num
    exact ih _

/-- C5 (code bug): the spec requires `chunk_overlap >= chunk_size` to raise
`ConfigurationError` eagerly at construction of `SummarizeAgent`, before any
chunking executes. The code's `__init__` performs no such validation — it
accepts `chunk_size = chunk_overlap = 10` without error — and the chunking
loop then never terminates on an 11-character text. -/
theorem chunk_config_not_validated :
    summarizeAgent_init 10 10 = .ok ⟨10, 10⟩
      ∧ (∀ fuel : Nat, chunk_text (List.replicate 11 'a') 10 10 fuel = none) := by
  refine ⟨rfl, ?_⟩
  intro fuel
  exact chunkGo_stuck fuel []

/-- C7 (amended): for every input text and every configuration with
`0 ≤ chunk_overlap < chunk_size`, `SummarizeAgent.run` returns (never
raises): the result's status is `success` or `failed`,
`original_content_size` is the character count of the input, and a `failed`
result carries the raised exception's message after the
"Summarization failed: " prefix. -/
theorem summarize_run_total
    (summ merge : SummarizeToolInput → Except String SummarizeToolOutput)
    (size ov : Int) (hov : 0 ≤ ov) (hlt : ov < size) (text : List Char) :
    ∃ out : SummarizeOutput,
      summarizeAgent_run summ merge ⟨size, ov⟩ (text.length + 1) text = some out
        ∧ (out.status = .success ∨ out.status = .failed)
        ∧ out.original_content_size = text.length
        ∧ (out.status = .failed →
            ∃ e, out.summary = "Summarization failed: " ++ e) := by
  have hs : 1 ≤ sNat size ov := by unfold sNat; omega
  unfold summarizeAgent_run
  dsimp only
  by_cases hlen : (text.length : Int) > size
  · rw [if_pos hlen]
    have hL : 0 < text.length := by omega
    obtain ⟨chunks, hchunks⟩ :
        ∃ cs, chunk_text text size ov (text.length + 1) = some cs :=
      ⟨_, chunk_text_closed text size ov hov hlt hL _
        (numChunksCode_le_fuel _ _ _ hs)⟩
    unfold summarize_chunked
    dsimp only
    rw [hchunks]
    dsimp only
    cases hgo : summarizeChunksGo summ chunks.length 1 chunks with
    | error e =>
      exact ⟨_, rfl, Or.inr rfl, rfl, fun _ => ⟨e, rfl⟩⟩
    | ok p =>
      obtain ⟨ss, log⟩ := p
      dsimp only
      cases hmerge : merge ⟨String.intercalate "\n\n" ss, false⟩ with
      | error e =>
        exact ⟨_, rfl, Or.inr rfl, rfl, fun _ => ⟨e, rfl⟩⟩
      | ok m =>
        exact ⟨_, rfl, Or.inl rfl, rfl, fun hcon => by cases hcon⟩
  · rw [if_neg hlen]
    cases hdirect : summ ⟨String.mk text, false⟩ with
    | error e =>
      exact ⟨_, rfl, Or.inr rfl, rfl, fun _ => ⟨e, rfl⟩⟩
    | ok r =>
      exact ⟨_, rfl, Or.inl rfl, rfl, fun hcon => by cases hcon⟩

/-- Witness for `summarize_run_total`: a 7-character text, `chunk_size = 3`,
`chunk_overlap = 1`, tools that always succeed. -/
theorem summarize_run_total_witness :
    ∃ out : SummarizeOutput,
      summarizeAgent_run (fun _ => .ok ⟨"s", []⟩) (fun _ => .ok ⟨"m", []⟩)
          ⟨3, 1⟩ ((List.replicate 7 'a').length + 1) (List.replicate 7 'a')
          = some out
        ∧ (out.status = .success ∨ out.status = .failed)
        ∧ out.original_content_size = (List.replicate 7 'a').length
        ∧ (out.status = .failed →
            ∃ e, out.summary = "Summarization failed: " ++ e) :=
  summarize_run_total (fun _ => .ok ⟨"s", []⟩) (fun _ => .ok ⟨"m", []⟩)
    3 1 (by decide) (by decide) (List.replicate 7 'a')

/-- C7 (counterexample to the claim as stated): with the unvalidated
configuration `chunk_size = chunk_overlap = 10` and an 11-character input,
`SummarizeAgent.run` does not return at all (the chunking loop inside it
diverges), so "for every input, run always returns a SummarizeOutput" fails
— even though no exception is ever raised. -/
theorem summarize_run_counterexample :
    summarizeAgent_run (fun _ => .ok ⟨"s", []⟩) (fun _ => .ok ⟨"m", []⟩)
        ⟨10, 10⟩ 12 (List.replicate 11 'a') = none
      ∧ (∀ fuel : Nat,
          summarizeAgent_run (fun _ => .ok ⟨"s", []⟩) (fun _ => .ok ⟨"m", []⟩)
            ⟨10, 10⟩ fuel (List.replicate 11 'a') = none) := by
  have hall : ∀ fuel : Nat,
      summarizeAgent_run (fun _ => .ok ⟨"s", []⟩) (fun _ => .ok ⟨"m", []⟩)
        ⟨10, 10⟩ fuel (List.replicate 11 'a') = none := by
    intro fuel
    unfold summarizeAgent_run
    dsimp only
    rw [if_pos (by simp)]
    unfold summarize_chunked
    dsimp only
    rw [show chunk_text (List.replicate 11 'a') 10 10 fuel = none from
      chunkGo_stuck fuel []]
  exact ⟨hall 12, hall⟩

/-- The per-chunk loop, on success, yields one labeled summary and one
recorded `SummarizeTool` call per chunk, and no merge call. -/
theorem summarizeChunksGo_spec
    (summ : SummarizeToolInput → Except String SummarizeToolOutput) (n : Nat) :
    ∀ (chunks : List (List Char)) (i : Nat) (ss : List String) (log : List SummCall),
      summarizeChunksGo summ n i chunks = .ok (ss, log) →
      ss.length = chunks.length
        ∧ log.countP (fun c => c.isMerge) = 0
        ∧ log.countP (fun c => c.isSummarize) = chunks.length := by
  intro chunks
  induction chunks with
  | nil =>
    intro i ss log h
    rw [summarizeChunksGo] at h
    injection h with h
    injection h with h1 h2
    subst h1
    subst h2
    simp
  | cons c rest ih =>
    intro i ss log h
    rw [summarizeChunksGo] at h
    cases hsumm : summ ⟨String.mk c, true⟩ with
    | error e =>
      rw [hsumm] at h
      cases h
    | ok r =>
      rw [hsumm] at h
      dsimp only at h
      cases hrec : summarizeChunksGo summ n (i + 1) rest with
      | error e =>
        rw [hrec] at h
        cases h
      | ok q =>
        obtain ⟨ss', log'⟩ := q
        rw [hrec] at h
        dsimp only at h
        injection h with h
        injection h with h1 h2
        subst h1
        subst h2
        obtain ⟨hl, hm, hs⟩ := ih (i + 1) ss' log' hrec
        have e1 : ∀ inp, (SummCall.summarizeCall inp).isMerge = false := fun _ => rfl
        have e2 : ∀ inp, (SummCall.summarizeCall inp).isSummarize = true := fun _ => rfl
        refine ⟨by simp [hl], ?_, ?_⟩
        · simp [List.countP_cons, e1, hm]
        · simp [List.countP_cons, e2, hs]

/-- Inversion of a successful `_summarize_chunked` run: the chunks came from
`_chunk_text`, each was summarized in order, and the single merge call
consumed the blank-line join of all labeled chunk summaries and was the last
recorded call. -/
theorem summarize_chunked_ok_inv
    (summ merge : SummarizeToolInput → Except String SummarizeToolOutput)
    (st : SummarizeAgentState) (fuel : Nat) (text : List Char)
    (out : SummarizeToolOutput) (log : List SummCall)
    (h : summarize_chunked summ merge st fuel text = some (.ok (out, log))) :
    ∃ chunks ss golog,
      chunk_text text st.chunk_size st.chunk_overlap fuel = some chunks
        ∧ summarizeChunksGo summ chunks.length 1 chunks = .ok (ss, golog)
        ∧ merge ⟨String.intercalate "\n\n" ss, false⟩ = .ok out
        ∧ log = golog ++ [SummCall.mergeCall ⟨String.intercalate "\n\n" ss, false⟩] := by
  unfold summarize_chunked at h
  cases hct : chunk_text text st.chunk_size st.chunk_overlap fuel with
  | none =>
    rw [hct] at h
    cases h
  | some chunks =>
    rw [hct] at h
    dsimp only at h
    cases hgo : summarizeChunksGo summ chunks.length 1 chunks with
    | error e =>
      rw [hgo] at h
      cases h
    | ok p =>
      obtain ⟨ss, golog⟩ := p
      rw [hgo] at h
      dsimp only at h
      cases hmerge : merge ⟨String.intercalate "\n\n" ss, false⟩ with
      | error e =>
        rw [hmerge] at h
        cases h
      | ok m =>
        rw [hmerge] at h
        dsimp only at h
        injection h with h
        injection h with h
        injection h with h1 h2
        subst h2
        exact ⟨chunks, ss, golog, rfl, hgo, by rw [hmerge, h1], rfl⟩

/-- The four chunks of a 10,000-character text at
`chunk_size = 3000`, `chunk_overlap = 200`. -/
theorem chunk_text_10000 :
    chunk_text (List.replicate 10000 'a') 3000 200 10001
      = some [sliceNat (List.replicate 10000 'a') 0 3000,
              sliceNat (List.replicate 10000 'a') 2800 5800,
              sliceNat (List.replicate 10000 'a') 5600 8600,
              sliceNat (List.replicate 10000 'a') 8400 10000] := by
  have h := chunk_text_eq_spans (List.replicate 10000 'a') 3000 200
    (by decide) (by decide) (by rw [List.length_replicate]; omega) 10001
    (by rw [List.length_replicate]; decide)
  rw [h, List.length_replicate]
  rw [show codeSpans 10000 3000 200
      = [(0, 3000), (2800, 5800), (5600, 8600), (8400, 10000)] from by decide]
  rfl

/-- The lengths of those four chunks. -/
theorem chunk_lengths_10000 :
    Option.map (List.map List.length)
        (chunk_text (List.replicate 10000 'a') 3000 200 10001)
      = some [3000, 3000, 3000, 1600] := by
  rw [chunk_text_10000]
  simp only [Option.map_some', List.map_cons, List.map_nil, sliceNat_length,
    List.length_replicate]
  norm_num

set_option maxRecDepth 2048 in
/-- C8 (amended): on a 10,000-character text with `chunk_size = 3000` and
`chunk_overlap = 200` the pipeline produces 4 chunks — spans 0–3000,
2800–5800, 5600–8600, and 8400–10000 (clipped), of lengths 3000, 3000,
3000, 1600 — and any successful `_summarize_chunked` run records exactly
one merge call and exactly 4 summarize calls, the merge call coming last
and consuming the blank-line join of all 4 labeled chunk summaries. -/
theorem pipeline_scenario_10000
    (summ merge : SummarizeToolInput → Except String SummarizeToolOutput)
    (out : SummarizeToolOutput) (log : List SummCall)
    (h : summarize_chunked summ merge ⟨3000, 200⟩ 10001 (List.replicate 10000 'a')
      = some (.ok (out, log))) :
    codeSpans 10000 3000 200 = [(0, 3000), (2800, 5800), (5600, 8600), (8400, 10000)]
      ∧ Option.map (List.map List.length)
          (chunk_text (List.replicate 10000 'a') 3000 200 10001)
        = some [3000, 3000, 3000, 1600]
      ∧ log.countP (fun c => c.isMerge) = 1
      ∧ log.countP (fun c => c.isSummarize) = 4
      ∧ ∃ ss : List String, ss.length = 4
          ∧ log.getLast? = some (.mergeCall ⟨String.intercalate "\n\n" ss, false⟩) := by
  obtain ⟨chunks, ss, golog, hct, hgo, hmerge, hlog⟩ :=
    summarize_chunked_ok_inv summ merge ⟨3000, 200⟩ 10001
      (List.replicate 10000 'a') out log h
  dsimp only at hct
  have hchunks4 : chunks.length = 4 := by
    have h2 := chunk_lengths_10000
    rw [hct] at h2
    simp only [Option.map_some'] at h2
    replace h2 := Option.some.inj h2
    have h3 := congrArg List.length h2
    rw [List.length_map] at h3
    rw [h3]
    rfl
  obtain ⟨hsslen, hgm, hgs⟩ :=
    summarizeChunksGo_spec summ chunks.length chunks 1 ss golog hgo
  have e1 : ∀ inp, (SummCall.mergeCall inp).isMerge = true := fun _ => rfl
  have e2 : ∀ inp, (SummCall.mergeCall inp).isSummarize = false := fun _ => rfl
  refine ⟨by decide, chunk_lengths_10000, ?_, ?_, ss, by omega, ?_⟩
  · rw [hlog, List.countP_append]
    simp [List.countP_cons, e1, hgm]
  · rw [hlog, List.countP_append]
    simp [List.countP_cons, e2]
    omega
  · rw [hlog, List.getLast?_concat]

/-- Evaluation of the 10,000-character scenario with the sample oracles. -/
theorem summarize_chunked_sample :
    summarize_chunked sampleSummOracle sampleMergeOracle ⟨3000, 200⟩ 10001
        (List.replicate 10000 'a')
      = some (.ok (⟨"m", []⟩, sampleLog)) := by
  unfold summarize_chunked
  dsimp only
  rw [chunk_text_10000]
  simp only [summarizeChunksGo, sampleSummOracle, sampleMergeOracle,
    List.length_cons, List.length_nil, List.cons_append, List.nil_append,
    sampleLog, sampleChunkInput, sampleMergeInput, sampleSummaries]

/-- Witness for `pipeline_scenario_10000` with the sample oracles. -/
theorem pipeline_scenario_10000_witness :
    codeSpans 10000 3000 200 = [(0, 3000), (2800, 5800), (5600, 8600), (8400, 10000)]
      ∧ Option.map (List.map List.length)
          (chunk_text (List.replicate 10000 'a') 3000 200 10001)
        = some [3000, 3000, 3000, 1600]
      ∧ sampleLog.countP (fun c => c.isMerge) = 1
      ∧ sampleLog.countP (fun c => c.isSummarize) = 4
      ∧ ∃ ss : List String, ss.length = 4
          ∧ sampleLog.getLast?
            = some (.mergeCall ⟨String.intercalate "\n\n" ss, false⟩) :=
  pipeline_scenario_10000 sampleSummOracle sampleMergeOracle ⟨"m", []⟩ sampleLog
    summarize_chunked_sample

/-- C8 (counterexample to the claim as stated): the 10,000-character
scenario produces 4 chunks, not the 5 the spec asserts. -/
theorem pipeline_scenario_counterexample :
    Option.map List.length
        (chunk_text (List.replicate 10000 'a') 3000 200 10001) = some 4
      ∧ (4 : Nat) ≠ 5 := by
  refine ⟨?_, by decide⟩
  rw [chunk_text_10000]
  rfl

/-- C1: `_execute_tool` never raises: for every tool map and every tool
invocation request it returns a string — the serialized error descriptor on
an unregistered capability, on input-validation failure, and on an exception
from the capability's execution, and the serialized success result otherwise
— and nothing else. -/
theorem execute_tool_never_raises (tm : List (String × ToolImpl)) (tc : ToolCall) :
    (lookupTool tm tc.tool_name = none →
        execute_tool tm tc = dumpErrorJson ("Unknown tool: " ++ tc.tool_name))
      ∧ (∀ tool, lookupTool tm tc.tool_name = some tool →
          (∀ e, tool.validate tc.tool_input = .error e →
              execute_tool tm tc = dumpErrorJson e)
            ∧ (∀ inp, tool.validate tc.tool_input = .ok inp →
                (∀ e, tool.exec inp = .error e →
                    execute_tool tm tc = dumpErrorJson e)
                  ∧ (∀ res, tool.exec inp = .ok res →
                      execute_tool tm tc = res)))
      ∧ ((∃ msg, execute_tool tm tc = dumpErrorJson msg)
          ∨ ∃ tool inp res, lookupTool tm tc.tool_name = some tool
              ∧ tool.validate tc.tool_input = .ok inp
              ∧ tool.exec inp = .ok res
              ∧ execute_tool tm tc = res) := by
  refine ⟨?_, ?_, ?_⟩
  · intro hnone
    unfold execute_tool
    rw [hnone]
  · intro tool htool
    refine ⟨?_, ?_⟩
    · intro e he
      unfold execute_tool
      rw [htool]
      dsimp only
      rw [he]
    · intro inp hinp
      refine ⟨?_, ?_⟩
      · intro e he
        unfold execute_tool
        rw [htool]
        dsimp only
        rw [hinp]
        dsimp only
        rw [he]
      · intro res hres
        unfold execute_tool
        rw [htool]
        dsimp only
        rw [hinp]
        dsimp only
        rw [hres]
  · unfold execute_tool
    cases hlook : lookupTool tm tc.tool_name with
    | none => exact Or.inl ⟨_, rfl⟩
    | some tool =>
      dsimp only
      cases hval : tool.validate tc.tool_input with
      | error e => exact Or.inl ⟨e, rfl⟩
      | ok inp =>
        dsimp only
        cases hexec : tool.exec inp with
        | error e => exact Or.inl ⟨e, rfl⟩
        | ok res => exact Or.inr ⟨tool, inp, res, rfl, hval, hexec, rfl⟩

/-- Witness for `execute_tool_never_raises`: an empty tool map and a request
for the unregistered capability "Nope". -/
theorem execute_tool_never_raises_witness :
    execute_tool [] ⟨"id1", "Nope", []⟩
      = dumpErrorJson ("Unknown tool: " ++ "Nope") :=
  (execute_tool_never_raises [] ⟨"id1", "Nope", []⟩).1 rfl

/-- C2: every terminating run of `_run_agentic_loop` decomposes into
well-formed conversation steps (`ConvSteps`): in particular every
tool-requesting model turn is appended together with — and immediately
followed by — exactly one driver turn that carries one result per requested
invocation, correlated positionally by call identifier, and this happens
before the next gateway call; moreover the results list always has exactly
the requests' length and identifiers, and the tool calls of a response are
exactly the `tool_use` blocks of the raw content re-inserted verbatim into
the history. -/
theorem agentic_loop_alternation (oracle : Nat → List HistMsg → ProviderResponse)
    (tm : List (String × ToolImpl)) (n fuel : Nat) (h h' : List HistMsg)
    (hrun : run_agentic_loop oracle tm n fuel h = some h') :
    ConvSteps oracle tm n h h'
      ∧ (∀ tcs : List ToolCall,
          (toolResults tm tcs).length = tcs.length
            ∧ (toolResults tm tcs).map ToolResult.tool_use_id
              = tcs.map ToolCall.tool_use_id)
      ∧ (∀ pr : ProviderResponse,
          (mkResponse pr).tool_calls = extractToolCalls (mkResponse pr).raw_content) := by
  refine ⟨?_, ?_, fun pr => rfl⟩
  · induction fuel generalizing n h with
    | zero => cases hrun
    | succ f ih =>
      rw [run_agentic_loop] at hrun
      by_cases hend : (mkResponse (oracle n h)).stop_reason = "end_turn"
      · rw [if_pos (by simp [hend])] at hrun
        injection hrun with hrun
        rw [← hrun]
        exact ConvSteps.final n h hend
      · rw [if_neg (by simp [hend])] at hrun
        by_cases htool : (mkResponse (oracle n h)).stop_reason = "tool_use"
        · rw [if_pos (by simp [htool])] at hrun
          exact ConvSteps.tools n h h' htool (ih _ _ hrun)
        · rw [if_neg (by simp [htool])] at hrun
          exact ConvSteps.skip n h h' hend htool (ih _ _ hrun)
  · intro tcs
    refine ⟨List.length_map _ _, ?_⟩
    unfold toolResults
    rw [List.map_map]
    rfl

/-- Witness for `agentic_loop_alternation`: one `end_turn` round from the
empty history. -/
theorem agentic_loop_alternation_witness :
    ConvSteps sampleOracleEnd [] 0 []
        ([] ++ [⟨"assistant", .blocks [ContentBlock.text "bye"]⟩])
      ∧ (∀ tcs : List ToolCall,
          (toolResults [] tcs).length = tcs.length
            ∧ (toolResults [] tcs).map ToolResult.tool_use_id
              = tcs.map ToolCall.tool_use_id)
      ∧ (∀ pr : ProviderResponse,
          (mkResponse pr).tool_calls = extractToolCalls (mkResponse pr).raw_content) :=
  agentic_loop_alternation sampleOracleEnd [] 0 1 []
    ([] ++ [⟨"assistant", .blocks [ContentBlock.text "bye"]⟩]) (by decide)

/-- C9: when the gateway's stop reason is neither `"end_turn"` nor
`"tool_use"` (for instance `"max_tokens"`), the loop appends nothing — it
just issues the next gateway call with the history unchanged — and if the
gateway keeps answering this way the loop never terminates. -/
theorem loop_ignores_other_stop_reasons
    (oracle : Nat → List HistMsg → ProviderResponse)
    (tm : List (String × ToolImpl)) (h : List HistMsg) (n : Nat) :
    (∀ fuel,
        (mkResponse (oracle n h)).stop_reason ≠ "end_turn" →
        (mkResponse (oracle n h)).stop_reason ≠ "tool_use" →
        run_agentic_loop oracle tm n (fuel + 1) h
          = run_agentic_loop oracle tm (n + 1) fuel h)
      ∧ ((∀ k, (oracle k h).stop_reason ≠ "end_turn"
              ∧ (oracle k h).stop_reason ≠ "tool_use") →
          ∀ fuel m, run_agentic_loop oracle tm m fuel h = none) := by
  constructor
  · intro fuel hend htool
    rw [run_agentic_loop]
    rw [if_neg (by simp [hend]), if_neg (by simp [htool])]
  · intro hall fuel
    induction fuel with
    | zero =>
      intro m
      rfl
    | succ f ih =>
      intro m
      rw [run_agentic_loop]
      rw [if_neg (by simp [(hall m).1, mkResponse]),
        if_neg (by simp [(hall m).2, mkResponse])]
      exact ih (m + 1)

/-- Witness for `loop_ignores_other_stop_reasons` with the `"max_tokens"`
gateway. -/
theorem loop_ignores_other_stop_reasons_witness :
    run_agentic_loop sampleOracleMax [] 0 3 []
        = run_agentic_loop sampleOracleMax [] 1 2 []
      ∧ run_agentic_loop sampleOracleMax [] 0 5 [] = none :=
  ⟨(loop_ignores_other_stop_reasons sampleOracleMax [] [] 0).1 2
      (by decide) (by decide),
    (loop_ignores_other_stop_reasons sampleOracleMax [] [] 0).2
      (fun k => ⟨by simp [sampleOracleMax], by simp [sampleOracleMax]⟩) 5 0⟩

/-- C10: whenever `SummarizeTool.run`, `MergeSummariesTool.run` or
`ProgressTrackerTool.run` returns normally, the shared client configuration
is exactly what it was before the call: the per-call system-prompt swap is
undone and no other field is modified. -/
theorem tools_restore_system_prompt :
    (∀ (oracle : LLMConfig → List Message → Except String SummJson)
        (cfg : LLMConfig) (inp : SummarizeToolInput)
        (cfg' : LLMConfig) (out : SummarizeToolOutput),
        summarizeTool_run oracle cfg inp = .ok (cfg', out) → cfg' = cfg)
      ∧ (∀ (oracle : LLMConfig → List Message → Except String SummJson)
          (cfg : LLMConfig) (inp : SummarizeToolInput)
          (cfg' : LLMConfig) (out : SummarizeToolOutput),
          mergeSummariesTool_run oracle cfg inp = .ok (cfg', out) → cfg' = cfg)
      ∧ (∀ (oracle : LLMConfig → List Message → Except String ProgJson)
          (streakOf : List WorkoutSession → Nat)
          (dumps : List WorkoutSession → String)
          (store : List WorkoutSession) (cfg : LLMConfig)
          (inp : ProgressTrackerInput) (cfg' : LLMConfig)
          (store' : List WorkoutSession) (out : ProgressTrackerOutput),
          progressTracker_run oracle streakOf dumps store cfg inp
              = .ok (cfg', store', out) →
            cfg' = cfg) := by
  refine ⟨?_, ?_, ?_⟩
  · intro oracle cfg inp cfg' out h
    unfold summarizeTool_run at h
    dsimp only at h
    cases hor : oracle { cfg with
        system_prompt := some (if inp.is_chunk then CHUNK_PROMPT else FULL_PROMPT) }
        [⟨"user", inp.text⟩] with
    | error e =>
      rw [hor] at h
      cases h
    | ok result =>
      rw [hor] at h
      dsimp only at h
      cases hsum : result.summary with
      | none =>
        rw [hsum] at h
        cases h
      | some s =>
        rw [hsum] at h
        dsimp only at h
        cases hkt : result.key_takeaways with
        | none =>
          rw [hkt] at h
          cases h
        | some kt =>
          rw [hkt] at h
          injection h with h
          injection h with h1 h2
          rw [← h1]
  · intro oracle cfg inp cfg' out h
    unfold mergeSummariesTool_run at h
    dsimp only at h
    cases hor : oracle { cfg with system_prompt := some MERGE_PROMPT }
        [⟨"user", inp.text⟩] with
    | error e =>
      rw [hor] at h
      cases h
    | ok result =>
      rw [hor] at h
      dsimp only at h
      cases hsum : result.summary with
      | none =>
        rw [hsum] at h
        cases h
      | some s =>
        rw [hsum] at h
        dsimp only at h
        cases hkt : result.key_takeaways with
        | none =>
          rw [hkt] at h
          cases h
        | some kt =>
          rw [hkt] at h
          injection h with h
          injection h with h1 h2
          rw [← h1]
  · intro oracle streakOf dumps store cfg inp cfg' store' out h
    unfold progressTracker_run at h
    dsimp only at h
    generalize hor0 : oracle _ _ = r at h
    cases r with
    | error e =>
      cases h
    | ok raw =>
      dsimp only at h
      cases hps : raw.progress_summary with
      | none =>
        rw [hps] at h
        cases h
      | some ps =>
        rw [hps] at h
        dsimp only at h
        cases hach : raw.achievements with
        | none =>
          rw [hach] at h
          cases h
        | some ach =>
          rw [hach] at h
          injection h with h
          injection h with h1 h2
          rw [← h1]

/-- Witness for `tools_restore_system_prompt`: concrete normal returns of
all three tools, and the restored configuration. -/
theorem tools_restore_system_prompt_witness :
    summarizeTool_run sampleSummJsonOracle sampleCfg ⟨"t", false⟩
        = .ok (sampleCfg, ⟨"x", []⟩)
      ∧ mergeSummariesTool_run sampleSummJsonOracle sampleCfg ⟨"t", false⟩
        = .ok (sampleCfg, ⟨"x", []⟩)
      ∧ progressTracker_run sampleProgJsonOracle (fun _ => 1) (fun _ => "[]")
          [] sampleCfg ⟨"u", "legs", 30, [], 3, 3, none⟩
        = .ok (sampleCfg, [⟨"legs", 30, [], 3, 3, none⟩], ⟨1, 1, "p", []⟩)
      ∧ sampleCfg = sampleCfg :=
  ⟨rfl, rfl, rfl,
    tools_restore_system_prompt.1 sampleSummJsonOracle sampleCfg
      ⟨"t", false⟩ sampleCfg ⟨"x", []⟩ rfl⟩

end AgenticSeries

